import Mathlib

/-!
Shallow embedding of the constant-expression evaluation engine of the
SystemRDL compiler (file `systemrdl/core/expressions.py`).

Expression nodes carry an evaluation width field (`expr_eval_width` in the
source, here `Option Int`, `none` = Python `None`).  The two-phase width
resolution (`resolve_expr_width` / `propagate_eval_width`) mutates the tree
in the source; here it is modelled as a tree-to-tree function returning the
updated tree.  Failing operations (`msg.fatal`, Python runtime errors) are
modelled with the `Except` monad.
-/

namespace SystemRdl

/-- Errors: `msg.fatal(message)` diagnostics plus the Python runtime errors
the source can raise (TypeError from `1 << None`, ValueError from a negative
shift count, NameError from an unbound local, AttributeError from
`None.get_value()`, IndexError from an out-of-bounds list access, and the
bare `raise RuntimeError` in `InstRef.get_value`).  `pyFloat` marks the spot
where Python `l ** r` with a negative exponent leaves the integer domain
(produces a float); no integer result exists there. -/
inductive EvalErr where
  | fatal (msg : String)
  | pyTypeError
  | pyValueError
  | pyNameError (localName : String)
  | pyAttributeError
  | pyIndexError
  | runtimeError
  | pyFloat
deriving DecidableEq

/-- Result types returned by `predict_type`: Python `int`, `bool`, `str`,
or the class of a referenced component instance (`type(current_inst)`),
identified by its class name. -/
inductive RdlType where
  | tint
  | tbool
  | tstr
  | tcomp (classId : String)
deriving DecidableEq

/-- A node of the external component tree (the narrow contract the core
uses: name lookup among children, array-ness, array dimensions, class
identity, addressability). -/
inductive Component where
  | mk (cname : String) (classId : String) (isAddressable : Bool)
      (isArray : Bool) (arrayDimensions : List Int)
      (children : List Component)

def Component.cname : Component → String
  | .mk n _ _ _ _ _ => n

def Component.classId : Component → String
  | .mk _ c _ _ _ _ => c

def Component.isAddressable : Component → Bool
  | .mk _ _ a _ _ _ => a

def Component.isArray : Component → Bool
  | .mk _ _ _ a _ _ => a

def Component.arrayDimensions : Component → List Int
  | .mk _ _ _ _ d _ => d

def Component.children : Component → List Component
  | .mk _ _ _ _ _ cs => cs

/-- Source `comp.get_child_by_name(name)`: first child whose name matches. -/
def Component.getChildByName (c : Component) (name : String) : Option Component :=
  c.children.find? (fun ch => ch.cname == name)

mutual
/-- Runtime values produced by `get_value`: Python ints, bools, strings and
the `rdltypes.ComponentRef` container. -/
inductive Value where
  | vint (i : Int)
  | vbool (b : Bool)
  | vstr (s : String)
  | vref (r : ComponentRef)

/-- Source `rdltypes.ComponentRef(uplevels_to_ref, resolved_ref_elements)`: the
resolved relative-path container.  Each path element pairs a name with an
optional index list (`None` when the segment is not an array). -/
inductive ComponentRef where
  | mk (uplevels : Int) (refElements : List (String × Option (List Value)))
end

/-- Operator tags of the `_BinaryIntExpr` subclasses. -/
inductive BinOp where
  | add | sub | mult | div | mod | band | bor | bxor | bxnor
deriving DecidableEq

/-- Operator tags of the `_UnaryIntExpr` subclasses. -/
inductive UnOp where
  | plus | minus | invert
deriving DecidableEq

/-- Operator tags of the `_RelationalExpr` subclasses. -/
inductive RelOp where
  | eq | neq | lt | gt | leq | geq
deriving DecidableEq

/-- Operator tags of the `_ReductionExpr` subclasses modelled here
(and / nand / or / nor reduction; the xor / xnor reductions and `BoolNot`
are outside the scope of this development). -/
inductive RedOp where
  | andr | nandr | orr | norr
deriving DecidableEq

/-- Operator tags of the `_BoolExpr` subclasses (`&&`, `||`). -/
inductive BoolOp where
  | band | bor
deriving DecidableEq

/-- Operator tags of the `_ExpShiftExpr` subclasses (`**`, `<<`, `>>`). -/
inductive ShiftOp where
  | exp | lsh | rsh
deriving DecidableEq

/-- Expression nodes.  Each integer-like node stores its
`expr_eval_width` (first field, `none` until resolution).  `widthCast`
additionally stores the memoized `cast_width` and the optional width
sub-expression (`op = [v, w_expr]` vs `op = [v]` with `cast_width = w_int`).
`paramRef` inlines the referenced parameter entity (name, declared type,
optionally bound expression).  `instRef` stores the base component, the
uplevels count and the (name, index-expression-list) path segments. -/
inductive Expr where
  | intLiteral (evalWidth : Option Int) (val : Int) (width : Int)
  | binary (evalWidth : Option Int) (op : BinOp) (l r : Expr)
  | unary (evalWidth : Option Int) (op : UnOp) (x : Expr)
  | relational (evalWidth : Option Int) (op : RelOp) (l r : Expr)
  | reduction (evalWidth : Option Int) (op : RedOp) (x : Expr)
  | boolExpr (evalWidth : Option Int) (op : BoolOp) (l r : Expr)
  | expShift (evalWidth : Option Int) (op : ShiftOp) (l r : Expr)
  | ternary (evalWidth : Option Int) (i j k : Expr)
  | widthCast (evalWidth : Option Int) (castWidth : Option Int) (v : Expr)
      (wExpr : Option Expr)
  | paramRef (evalWidth : Option Int) (pname : String) (ptype : RdlType)
      (bound : Option Expr)
  | instRef (refInst : Component) (uplevels : Int)
      (refElements : List (String × List Expr))

/-- Source `Expr.trunc`: `v & ((1 << self.expr_eval_width) - 1)`.
With an unresolved width Python raises TypeError (`1 << None`); with a
negative width it raises ValueError (negative shift count).  `Int.land`
has the two-complement (Python) bitwise-and semantics. -/
def trunc (ew : Option Int) (v : Int) : Except EvalErr Int :=
  match ew with
  | none => .error .pyTypeError
  | some w =>
    if w < 0 then .error .pyValueError
    else .ok (Int.land v (2 ^ w.toNat - 1))

/-- Python `int(v)` on the value kinds that can appear as operands
(`int(bool)` is 0 or 1; other kinds raise TypeError in operand position). -/
def pyInt (v : Value) : Except EvalErr Int :=
  match v with
  | .vint i => .ok i
  | .vbool b => .ok (if b then 1 else 0)
  | _ => .error .pyTypeError

/-- Python `bool(v)` truthiness. -/
def pyBool (v : Value) : Except EvalErr Bool :=
  match v with
  | .vint i => .ok (decide (i ≠ 0))
  | .vbool b => .ok b
  | .vstr s => .ok (decide (s ≠ ""))
  | .vref _ => .ok true

/-- Python `v >= d` for a stored index value against an int dimension
(ints and bools compare; other kinds raise TypeError). -/
def valueGeInt (v : Value) (d : Int) : Except EvalErr Bool :=
  match v with
  | .vint i => .ok (decide (d ≤ i))
  | .vbool b => .ok (decide (d ≤ (if b then (1 : Int) else 0)))
  | _ => .error .pyTypeError

/-- The range-check loop of `InstRef.get_value`:
`for i in range(len(idx_list)): if idx_list[i] >= dims[i]: msg.fatal(...)`.
When an index is out of range the source evaluates `array_suffix.err_ctx`
as the second argument of `msg.fatal`; `array_suffix` is an undefined local
name in that function (the comprehension variable is `suffix`), so Python
raises NameError before the diagnostic is emitted.  Accessing `dims[i]`
past the end raises IndexError. -/
def checkRanges : List Value → List Int → Except EvalErr Unit
  | [], _ => .ok ()
  | _ :: _, [] => .error .pyIndexError
  | v :: vs, d :: ds => do
    let ge ← valueGeInt v d
    if ge then .error (.pyNameError "array_suffix")
    else checkRanges vs ds

/-- Diagnostic text of `ParameterRef`:
`"Value for parameter \x27%s\x27 was never assigned" % name`. -/
def unboundMsg (n : String) : String :=
  "Value for parameter \x27" ++ n ++ "\x27 was never assigned"

mutual
/-- Source `get_value` of every modelled node variant, translated clause by clause
from the source.  Operand evaluation order is the left-to-right
`get_ops` order.  For `widthCast`, the source truncates to `self.cast_width`
(not to the evaluation width) and reports the fatal zero-width diagnostic
when the cast width is 0; an unresolved (`None`) cast width flows into
`trunc` and raises TypeError.  For `paramRef` with no bound expression the
source evaluates `self.param.expr.get_value()` on `None`, i.e. raises
AttributeError without any diagnostic. -/
def getValue : Expr → Except EvalErr Value
  | .intLiteral _ v _ => .ok (.vint v)
  | .binary ew op l r => do
    let lv ← getValue l
    let li ← pyInt lv
    let rv ← getValue r
    let ri ← pyInt rv
    match op with
    | .add => do let t ← trunc ew (li + ri); .ok (.vint t)
    | .sub => do let t ← trunc ew (li - ri); .ok (.vint t)
    | .mult => do let t ← trunc ew (li * ri); .ok (.vint t)
    | .div =>
      if ri = 0 then .error (.fatal "Division by zero")
      else do let t ← trunc ew (Int.fdiv li ri); .ok (.vint t)
    | .mod =>
      if ri = 0 then .error (.fatal "Modulo by zero")
      else do let t ← trunc ew (Int.fmod li ri); .ok (.vint t)
    | .band => do let t ← trunc ew (Int.land li ri); .ok (.vint t)
    | .bor => do let t ← trunc ew (Int.lor li ri); .ok (.vint t)
    | .bxor => do let t ← trunc ew (Int.xor li ri); .ok (.vint t)
    | .bxnor => do let t ← trunc ew (Int.xor li (Int.not ri)); .ok (.vint t)
  | .unary ew op x => do
    let nv ← getValue x
    let n ← pyInt nv
    match op with
    | .plus => do let t ← trunc ew n; .ok (.vint t)
    | .minus => do let t ← trunc ew (-n); .ok (.vint t)
    | .invert => do let t ← trunc ew (Int.not n); .ok (.vint t)
  | .relational _ op l r => do
    let lv ← getValue l
    let li ← pyInt lv
    let rv ← getValue r
    let ri ← pyInt rv
    match op with
    | .eq => .ok (.vbool (decide (li = ri)))
    | .neq => .ok (.vbool (decide (li ≠ ri)))
    | .lt => .ok (.vbool (decide (li < ri)))
    | .gt => .ok (.vbool (decide (ri < li)))
    | .leq => .ok (.vbool (decide (li ≤ ri)))
    | .geq => .ok (.vbool (decide (ri ≤ li)))
  | .reduction ew op x => do
    let nv ← getValue x
    let n ← pyInt nv
    match op with
    | .andr => do
      let t ← trunc ew (Int.not n)
      .ok (.vint (if t = 0 then 1 else 0))
    | .nandr => .ok (.vint (if n = 0 then 0 else 1))
    | .orr => .ok (.vint (if n = 0 then 0 else 1))
    | .norr => .ok (.vint (if n = 0 then 1 else 0))
  | .boolExpr _ op l r => do
    let lv ← getValue l
    let lb ← pyBool lv
    let rv ← getValue r
    let rb ← pyBool rv
    match op with
    | .band => .ok (.vbool (lb && rb))
    | .bor => .ok (.vbool (lb || rb))
  | .expShift ew op l r => do
    let lv ← getValue l
    let li ← pyInt lv
    let rv ← getValue r
    let ri ← pyInt rv
    match op with
    | .exp =>
      if ri < 0 then .error .pyFloat
      else do let t ← trunc ew (li ^ ri.toNat); .ok (.vint t)
    | .lsh =>
      if ri < 0 then .error .pyValueError
      else do let t ← trunc ew (li * 2 ^ ri.toNat); .ok (.vint t)
    | .rsh =>
      if ri < 0 then .error .pyValueError
      else do let t ← trunc ew (Int.fdiv li (2 ^ ri.toNat)); .ok (.vint t)
  | .ternary _ i j k => do
    let iv ← getValue i
    let ib ← pyBool iv
    let jv ← getValue j
    let kv ← getValue k
    .ok (if ib then jv else kv)
  | .widthCast _ cw v _ => do
    let nv ← getValue v
    let n ← pyInt nv
    match cw with
    | none => .error .pyTypeError
    | some w =>
      if w = 0 then .error (.fatal "Cannot cast to width of zero")
      else do let t ← trunc (some w) n; .ok (.vint t)
  | .paramRef _ _ _ none => .error .pyAttributeError
  | .paramRef _ _ _ (some e) => getValue e
  | .instRef refInst uplevels refElements => do
    let path ← instWalk refInst refElements
    .ok (.vref (.mk uplevels path))

/-- The path walk of `InstRef.get_value`: look up each named child (bare
`RuntimeError` when absent), evaluate the index suffixes of array segments
and range-check them, and collect the resolved (name, index-list) pairs. -/
def instWalk : Component → List (String × List Expr) →
    Except EvalErr (List (String × Option (List Value)))
  | _, [] => .ok []
  | c, (name, sfx) :: rest =>
    match c.getChildByName name with
    | none => .error .runtimeError
    | some child =>
      if child.isAddressable && child.isArray then do
        let vals ← evalSuffixes sfx
        checkRanges vals child.arrayDimensions
        let restR ← instWalk child rest
        .ok ((name, some vals) :: restR)
      else do
        let restR ← instWalk child rest
        .ok ((name, none) :: restR)

/-- Source `[ suffix.get_value() for suffix in array_suffixes ]`. -/
def evalSuffixes : List Expr → Except EvalErr (List Value)
  | [] => .ok []
  | e :: es => do
    let v ← getValue e
    let vs ← evalSuffixes es
    .ok (v :: vs)
end

/-- Tests `t not in [int, bool]` from the source type checks. -/
def isNumericType (t : RdlType) : Bool :=
  t == .tint || t == .tbool

mutual
/-- Source `predict_type` of every modelled node variant.  Note that
`ParameterRef.predict_type` returns the parameter declared type without
checking whether an expression is bound, exactly as in the source. -/
def predictType : Expr → Except EvalErr RdlType
  | .intLiteral _ _ _ => .ok .tint
  | .binary _ _ l r => do
    let tl ← predictType l
    if !(isNumericType tl) then
      .error (.fatal "Left operand of expression is not a compatible numeric type")
    else do
      let tr ← predictType r
      if !(isNumericType tr) then
        .error (.fatal "Right operand of expression is not a compatible numeric type")
      else .ok .tint
  | .unary _ _ x => do
    let tx ← predictType x
    if !(isNumericType tx) then
      .error (.fatal "Operand of expression is not a compatible numeric type")
    else .ok .tint
  | .relational _ _ l r => do
    let tl ← predictType l
    if !(isNumericType tl) then
      .error (.fatal "Left operand of expression is not a compatible numeric type")
    else do
      let tr ← predictType r
      if !(isNumericType tr) then
        .error (.fatal "Right operand of expression is not a compatible numeric type")
      else .ok .tbool
  | .reduction _ _ x => do
    let tx ← predictType x
    if !(isNumericType tx) then
      .error (.fatal "Operand of expression is not a compatible numeric type")
    else .ok .tint
  | .boolExpr _ _ l r => do
    let tl ← predictType l
    if !(isNumericType tl) then
      .error (.fatal "Left operand of expression is not a compatible boolean type")
    else do
      let tr ← predictType r
      if !(isNumericType tr) then
        .error (.fatal "Right operand of expression is not a compatible boolean type")
      else .ok .tbool
  | .expShift _ _ l r => do
    let tl ← predictType l
    if !(isNumericType tl) then
      .error (.fatal "Left operand of expression is not a compatible numeric type")
    else do
      let tr ← predictType r
      if !(isNumericType tr) then
        .error (.fatal "Right operand of expression is not a compatible numeric type")
      else .ok .tint
  | .ternary _ i j k => do
    let ti ← predictType i
    if !(isNumericType ti) then
      .error (.fatal "Conditional operand of expression is not a compatible boolean type")
    else do
      let tj ← predictType j
      let tk ← predictType k
      if isNumericType tj && isNumericType tk then .ok .tint
      else if tj = tk then .ok tj
      else .error (.fatal "True/False results of ternary conditional are not compatible types")
  | .widthCast _ cw v we => do
    match cw, we with
    | none, none => .error .pyIndexError
    | none, some wE => do
      let tw ← predictType wE
      if !(isNumericType tw) then
        .error (.fatal "Width operand of cast expression is not a compatible numeric type")
      else do
        let tv ← predictType v
        if !(isNumericType tv) then
          .error (.fatal "Value operand of cast expression cannot be cast to an integer")
        else .ok .tint
    | some _, _ => do
      let tv ← predictType v
      if !(isNumericType tv) then
        .error (.fatal "Value operand of cast expression cannot be cast to an integer")
      else .ok .tint
  | .paramRef _ _ pt _ => .ok pt
  | .instRef refInst _ refElements => ptWalk refInst refElements

/-- The path walk of `InstRef.predict_type`: look up each named child
(fatal diagnostic when absent), predict the type of every index suffix,
then check the index arity against the component (exact dimensionality
match for addressable arrays, no indices allowed otherwise); the result is
the class of the final component reached. -/
def ptWalk : Component → List (String × List Expr) → Except EvalErr RdlType
  | c, [] => .ok (.tcomp c.classId)
  | c, (name, sfx) :: rest =>
    match c.getChildByName name with
    | none =>
      .error (.fatal ("Could not resolve hierarchical reference to \x27" ++ name ++ "\x27"))
    | some child => do
      ptSuffixes sfx
      if child.isAddressable && child.isArray then
        if sfx.length ≠ child.arrayDimensions.length then
          .error (.fatal ("Incompatible number of index dimensions after \x27" ++ name
            ++ "\x27. Expected " ++ toString child.arrayDimensions.length
            ++ ", found " ++ toString sfx.length ++ "."))
        else ptWalk child rest
      else
        if sfx.length ≠ 0 then
          .error (.fatal ("Unable to index non-array component \x27" ++ name ++ "\x27"))
        else ptWalk child rest

/-- Source `for array_suffix in array_suffixes: array_suffix.predict_type()`. -/
def ptSuffixes : List Expr → Except EvalErr Unit
  | [] => .ok ()
  | e :: es => do
    let _ ← predictType e
    ptSuffixes es
end

mutual
/-- Source `get_min_eval_width` of every modelled node variant.  For `widthCast`
the source memoizes the computed cast width in `self.cast_width`
(`resolve_cast_width`); the value returned here is the same, because
expression evaluation is deterministic, and the state-updating entry
points (`resolveExprWidth`, `propagateEvalWidth`) model the memoization
explicitly. -/
def getMinEvalWidth : Expr → Except EvalErr Int
  | .intLiteral _ _ w => .ok w
  | .binary _ _ l r => do
    let wl ← getMinEvalWidth l
    let wr ← getMinEvalWidth r
    .ok (max wl wr)
  | .unary _ _ x => getMinEvalWidth x
  | .relational _ _ _ _ => .ok 1
  | .reduction _ _ _ => .ok 1
  | .boolExpr _ _ _ _ => .ok 1
  | .expShift _ _ l _ => getMinEvalWidth l
  | .ternary _ _ j k => do
    let wj ← getMinEvalWidth j
    let wk ← getMinEvalWidth k
    .ok (max wj wk)
  | .widthCast _ cw _ we => do
    let p ← castWidthResolve cw we
    .ok p.1
  | .paramRef _ n _ none => .error (.fatal (unboundMsg n))
  | .paramRef _ _ _ (some e) => getMinEvalWidth e
  | .instRef _ _ _ => .ok 1

/-- Source `WidthCast.resolve_cast_width`: when the cast width is not yet known,
resolve the width sub-expression as its own context, evaluate it, and
memoize the resulting width (returned here together with the resolved
width sub-expression). -/
def castWidthResolve : Option Int → Option Expr →
    Except EvalErr (Int × Option Expr)
  | some cw, we => .ok (cw, we)
  | none, some wE => do
    let wE2 ← resolveExprWidth wE
    let v ← getValue wE2
    let i ← pyInt v
    .ok (i, some wE2)
  | none, none => .error .pyIndexError

/-- Source `resolve_expr_width`, entry point of a new self-determined context,
per variant: the default (literal, binary, unary, relational, reduction)
takes the running maximum of the operands own minimal widths starting at 1
and pushes the result back into the operands; `_BoolExpr` overrides it
with a no-op; `_ExpShiftExpr` derives the width from the left operand only
and pushes it into the left operand only; `TernaryExpr` sizes the shared
branch context to `max(1, wj, wk)` and pushes it into both branches,
leaving the condition untouched; `WidthCast` re-resolves the value operand
at `max(cast_width, value minimal width)`; `ParameterRef` adopts the bound
expression as its operand (fatal diagnostic when unbound); `InstRef`
resolves every index suffix as its own context. -/
def resolveExprWidth : Expr → Except EvalErr Expr
  | .intLiteral _ v w => .ok (.intLiteral (some 1) v w)
  | .binary _ op l r => do
    let wl ← getMinEvalWidth l
    let wr ← getMinEvalWidth r
    let w := max (max 1 wl) wr
    let l2 ← propagateEvalWidth w l
    let r2 ← propagateEvalWidth w r
    .ok (.binary (some w) op l2 r2)
  | .unary _ op x => do
    let wx ← getMinEvalWidth x
    let w := max 1 wx
    let x2 ← propagateEvalWidth w x
    .ok (.unary (some w) op x2)
  | .relational _ op l r => do
    let wl ← getMinEvalWidth l
    let wr ← getMinEvalWidth r
    let w := max (max 1 wl) wr
    let l2 ← propagateEvalWidth w l
    let r2 ← propagateEvalWidth w r
    .ok (.relational (some w) op l2 r2)
  | .reduction _ op x => do
    let wx ← getMinEvalWidth x
    let w := max 1 wx
    let x2 ← propagateEvalWidth w x
    .ok (.reduction (some w) op x2)
  | .boolExpr ew op l r => .ok (.boolExpr ew op l r)
  | .expShift _ op l r => do
    let wl ← getMinEvalWidth l
    let l2 ← propagateEvalWidth wl l
    .ok (.expShift (some wl) op l2 r)
  | .ternary _ i j k => do
    let wj ← getMinEvalWidth j
    let wk ← getMinEvalWidth k
    let w := max (max 1 wj) wk
    let j2 ← propagateEvalWidth w j
    let k2 ← propagateEvalWidth w k
    .ok (.ternary (some w) i j2 k2)
  | .widthCast _ cw v we => do
    let p ← castWidthResolve cw we
    let wv ← getMinEvalWidth v
    let w := max p.1 wv
    let v2 ← propagateEvalWidth w v
    .ok (.widthCast (some w) (some p.1) v2 p.2)
  | .paramRef _ n _ none => .error (.fatal (unboundMsg n))
  | .paramRef _ n pt (some e) => do
    let we ← getMinEvalWidth e
    let w := max 1 we
    let e2 ← propagateEvalWidth w e
    .ok (.paramRef (some w) n pt (some e2))
  | .instRef refInst uplevels refElements => do
    let elems2 ← resolveElems refElements
    .ok (.instRef refInst uplevels elems2)

/-- Source `propagate_eval_width(w)`: the default (literal, binary, unary) stores
`w` and forwards it to every operand; `_RelationalExpr`, `_ReductionExpr`,
`WidthCast`, `ParameterRef` and `InstRef` ignore `w` and start their own
context via `resolve_expr_width`; `_BoolExpr` ignores `w` and resolves each
operand as its own context; `_ExpShiftExpr` propagates `w` into the left
operand and resolves the right operand as its own context; `TernaryExpr`
propagates `w` into both branches and resolves the condition as its own
context. -/
def propagateEvalWidth (w : Int) : Expr → Except EvalErr Expr
  | .intLiteral _ v wd => .ok (.intLiteral (some w) v wd)
  | .binary _ op l r => do
    let l2 ← propagateEvalWidth w l
    let r2 ← propagateEvalWidth w r
    .ok (.binary (some w) op l2 r2)
  | .unary _ op x => do
    let x2 ← propagateEvalWidth w x
    .ok (.unary (some w) op x2)
  | .relational ew op l r => resolveExprWidth (.relational ew op l r)
  | .reduction ew op x => resolveExprWidth (.reduction ew op x)
  | .boolExpr ew op l r => do
    let l2 ← resolveExprWidth l
    let r2 ← resolveExprWidth r
    .ok (.boolExpr ew op l2 r2)
  | .expShift _ op l r => do
    let l2 ← propagateEvalWidth w l
    let r2 ← resolveExprWidth r
    .ok (.expShift (some w) op l2 r2)
  | .ternary _ i j k => do
    let j2 ← propagateEvalWidth w j
    let k2 ← propagateEvalWidth w k
    let i2 ← resolveExprWidth i
    .ok (.ternary (some w) i2 j2 k2)
  | .widthCast ew cw v we => resolveExprWidth (.widthCast ew cw v we)
  | .paramRef ew n pt bound => resolveExprWidth (.paramRef ew n pt bound)
  | .instRef refInst uplevels refElements =>
    resolveExprWidth (.instRef refInst uplevels refElements)

/-- Suffix resolution over the path segments of `InstRef`. -/
def resolveElems : List (String × List Expr) →
    Except EvalErr (List (String × List Expr))
  | [] => .ok []
  | (name, sfx) :: rest => do
    let sfx2 ← resolveSuffixes sfx
    let rest2 ← resolveElems rest
    .ok ((name, sfx2) :: rest2)

/-- Source `for array_suffix in array_suffixes: array_suffix.resolve_expr_width()`. -/
def resolveSuffixes : List Expr → Except EvalErr (List Expr)
  | [] => .ok []
  | e :: es => do
    let e2 ← resolveExprWidth e
    let es2 ← resolveSuffixes es
    .ok (e2 :: es2)
end

/-! ### Helper lemmas -/

@[simp]
theorem exceptBindOk {ε α β : Type} (a : α) (f : α → Except ε β) :
    (Except.ok a : Except ε α) >>= f = f a := rfl

@[simp]
theorem exceptBindErr {ε α β : Type} (e : ε) (f : α → Except ε β) :
    (Except.error e : Except ε α) >>= f = Except.error e := rfl

theorem natAndTwoPowSubOne (m n : Nat) : m &&& (2 ^ n - 1) = m % 2 ^ n := by
  apply Nat.eq_of_testBit_eq
  intro i
  simp [Nat.testBit_land, Nat.testBit_two_pow_sub_one, Nat.testBit_mod_two_pow,
    Bool.and_comm]

theorem natAndAddLdiff (b a : Nat) : (b &&& a) + Nat.ldiff b a = b := by
  induction b using Nat.binaryRec generalizing a with
  | z => simp [Nat.zero_and, Nat.ldiff]
  | f x b ih =>
    rw [← Nat.bit_decomp a]
    simp only [Nat.land_bit, Nat.ldiff_bit]
    have h := ih (Nat.div2 a)
    generalize hA : b &&& Nat.div2 a = A at h ⊢
    generalize hB : Nat.ldiff b (Nat.div2 a) = B at h ⊢
    cases x <;> cases Nat.bodd a <;> simp [Nat.bit_val] <;> omega

theorem natLdiffMask (n m : Nat) : Nat.ldiff (2 ^ n - 1) m = 2 ^ n - 1 - m % 2 ^ n := by
  have h := natAndAddLdiff (2 ^ n - 1) m
  rw [Nat.land_comm, natAndTwoPowSubOne] at h
  omega

/-- The Python mask `v & ((1 << n) - 1)` on unbounded two-complement integers is
exactly the nonnegative residue `v mod 2^n`. -/
theorem landMaskEmod (v : Int) (n : Nat) :
    Int.land v (2 ^ n - 1) = v % ((2 : Int) ^ n) := by
  have hpow : (1 : Nat) ≤ 2 ^ n := Nat.one_le_two_pow
  have hcast : ((2 : Int) ^ n - 1) = ((2 ^ n - 1 : Nat) : Int) := by
    push_cast [hpow]
    ring
  cases v with
  | ofNat m =>
    rw [hcast]
    show ((m &&& (2 ^ n - 1) : Nat) : Int) = Int.ofNat m % ((2 : Int) ^ n)
    rw [natAndTwoPowSubOne]
    norm_cast
  | negSucc m =>
    rw [hcast]
    show ((Nat.ldiff (2 ^ n - 1) m : Nat) : Int) = Int.negSucc m % ((2 : Int) ^ n)
    rw [natLdiffMask]
    have hmlt : m % 2 ^ n < 2 ^ n := Nat.mod_lt _ (by omega)
    have hdm : 2 ^ n * (m / 2 ^ n) + m % 2 ^ n = m := Nat.div_add_mod m (2 ^ n)
    have hres : (Int.negSucc m) = ((2 ^ n - 1 - m % 2 ^ n : Nat) : Int)
        + (2 : Int) ^ n * (-((m / 2 ^ n : Nat) : Int) - 1) := by
      rw [Int.negSucc_eq]
      have h2 : ((2 ^ n : Nat) : Int) * ((m / 2 ^ n : Nat) : Int)
          + ((m % 2 ^ n : Nat) : Int) = (m : Int) := by
        exact_mod_cast hdm
      push_cast [Nat.le_sub_one_of_lt hmlt, hpow] at h2 ⊢
      linarith [h2]
    rw [hres, Int.add_mul_emod_self_left]
    have hlt : (2 ^ n - 1 - m % 2 ^ n : Nat) < 2 ^ n := by omega
    rw [Int.emod_eq_of_lt (by positivity) (by exact_mod_cast hlt)]

/-- Lemma: `trunc` with a resolved nonnegative width, in the mask form of the source. -/
theorem truncOk (w : Int) (hw : 0 ≤ w) (v : Int) :
    trunc (some w) v = .ok (Int.land v (2 ^ w.toNat - 1)) := by
  simp [trunc, not_lt.mpr hw]

/-- Lemma: `trunc` with a resolved nonnegative width is reduction modulo `2^w`. -/
theorem truncEmod (w : Int) (hw : 0 ≤ w) (v : Int) :
    trunc (some w) v = .ok (v % (2 : Int) ^ w.toNat) := by
  rw [truncOk w hw, landMaskEmod]

/-! ### Claim theorems -/

/-- The native (unbounded) integer operation corresponding to each binary
arithmetic/bitwise operator: `+ - * // % & | ^` and `^~` (which Python
parses as xor with the bitwise inverse of the right operand). -/
def nativeBinOp : BinOp → Int → Int → Int
  | .add, a, b => a + b
  | .sub, a, b => a - b
  | .mult, a, b => a * b
  | .div, a, b => Int.fdiv a b
  | .mod, a, b => Int.fmod a b
  | .band, a, b => Int.land a b
  | .bor, a, b => Int.lor a b
  | .bxor, a, b => Int.xor a b
  | .bxnor, a, b => Int.xor a (Int.not b)

/-- Claim C1: for every binary arithmetic/bitwise node whose width has been
resolved to `w`, `get_value` is the native unbounded integer operation on
the operand values, truncated via the mask `v & ((1 << w) - 1)` —
equivalently reduced modulo `2^w` — and the self-determined width
`get_min_eval_width` is the maximum of the two operands minimal widths. -/
theorem claim_C1 (op : BinOp) (w : Int) (ew : Option Int) (l r : Expr)
    (lv rv wl wr : Int) (hw : 0 ≤ w)
    (hl : getValue l = .ok (.vint lv)) (hr : getValue r = .ok (.vint rv))
    (hwl : getMinEvalWidth l = .ok wl) (hwr : getMinEvalWidth r = .ok wr)
    (hnz : (op = .div ∨ op = .mod) → rv ≠ 0) :
    getValue (.binary (some w) op l r)
      = .ok (.vint (Int.land (nativeBinOp op lv rv) (2 ^ w.toNat - 1)))
    ∧ getValue (.binary (some w) op l r)
      = .ok (.vint (nativeBinOp op lv rv % (2 : Int) ^ w.toNat))
    ∧ getMinEvalWidth (.binary ew op l r) = .ok (max wl wr) := by
  have hval : getValue (.binary (some w) op l r)
      = .ok (.vint (Int.land (nativeBinOp op lv rv) (2 ^ w.toNat - 1))) := by
    cases op with
    | div =>
      have hrv : rv ≠ 0 := hnz (Or.inl rfl)
      simp [getValue, hl, hr, pyInt, nativeBinOp, truncOk w hw, hrv]
    | mod =>
      have hrv : rv ≠ 0 := hnz (Or.inr rfl)
      simp [getValue, hl, hr, pyInt, nativeBinOp, truncOk w hw, hrv]
    | _ => simp [getValue, hl, hr, pyInt, nativeBinOp, truncOk w hw]
  refine ⟨hval, ?_, ?_⟩
  · rw [hval, landMaskEmod]
  · simp [getMinEvalWidth, hwl, hwr]

/-- Witness for claim C1 at the spec example
`Add(IntLiteral(5, width=4), IntLiteral(3, width=4))`: value `(5+3) mod 16 = 8`
and resolved self-determined width `max(4,4) = 4`. -/
theorem claim_C1_witness :
    getValue (.binary (some 4) .add (.intLiteral none 5 4) (.intLiteral none 3 4))
      = .ok (.vint 8)
    ∧ getMinEvalWidth (.binary none .add (.intLiteral none 5 4) (.intLiteral none 3 4))
      = .ok 4 := by
  have h := claim_C1 .add 4 none (.intLiteral none 5 4) (.intLiteral none 3 4)
    5 3 4 4 (by norm_num) rfl rfl (by simp [getMinEvalWidth]) (by simp [getMinEvalWidth])
    (by decide)
  refine ⟨?_, ?_⟩
  · rw [h.2.1]
    simp only [Except.ok.injEq, Value.vint.injEq, nativeBinOp]
    decide
  · have h3 := h.2.2
    simpa using h3

/-- Claim C3 records a code bug: `AndReduce.get_value` is 1 exactly when all
`w` bits of the truncated operand are 1 (the bitwise-inverted value
truncates to 0), but `NandReduce.get_value` is `int(n != 0)` — a duplicate
of `OrReduce.get_value` — instead of the complement of `AndReduce`.  At
operand value 15 with resolved width 4, and-reduce yields 1 and nand-reduce
also yields 1, where the complement would require `1 - 1 = 0`. -/
theorem claim_C3_nand_duplicates_or :
    getValue (.reduction (some 4) .andr (.intLiteral (some 4) 15 4)) = .ok (.vint 1)
    ∧ getValue (.reduction (some 4) .nandr (.intLiteral (some 4) 15 4)) = .ok (.vint 1)
    ∧ getValue (.reduction (some 4) .orr (.intLiteral (some 4) 15 4)) = .ok (.vint 1)
    ∧ getValue (.reduction (some 4) .andr (.intLiteral (some 4) 14 4)) = .ok (.vint 0)
    ∧ getValue (.reduction (some 4) .nandr (.intLiteral (some 4) 14 4)) = .ok (.vint 1) := by
  refine ⟨?_, rfl, rfl, ?_, rfl⟩
  · have h0 : Int.not 15 % (2 : Int) ^ (4 : Int).toNat = 0 := by decide
    have ht : trunc (some 4) (Int.not 15) = .ok 0 := by
      rw [truncEmod 4 (by norm_num), h0]
    simp [getValue, pyInt, ht]
  · have h1 : Int.not 14 % (2 : Int) ^ (4 : Int).toNat = 1 := by decide
    have ht : trunc (some 4) (Int.not 14) = .ok 1 := by
      rw [truncEmod 4 (by norm_num), h1]
    simp [getValue, pyInt, ht]

/-- The component tree used for the hierarchical-reference claims: a root
with one child `x`, an addressable array with dimensions `[4, 8]`. -/
def c9x : Component := .mk "x" "Reg" true true [4, 8] []

/-- Root of the C9 component tree. -/
def c9root : Component := .mk "top" "Addrmap" true false [] [c9x]

/-- Claim C9 records a code bug: over the array `x` with dimensions
`[4, 8]`, supplying 1 or 3 index expressions fails at type prediction with
the arity diagnostic, and indices `[3, 7]` succeed producing the resolved
relative reference; but for the out-of-range index `[4, 0]` the source
builds the IndexOutOfRange message and then evaluates
`array_suffix.err_ctx` — an unbound local name (the comprehension variable
is `suffix`) — so evaluation raises NameError before `msg.fatal` receives
the diagnostic. -/
theorem claim_C9_array_reference :
    predictType (.instRef c9root 0 [("x", [.intLiteral none 3 64])])
      = .error (.fatal "Incompatible number of index dimensions after \x27x\x27. Expected 2, found 1.")
    ∧ predictType (.instRef c9root 0
        [("x", [.intLiteral none 1 64, .intLiteral none 2 64, .intLiteral none 3 64])])
      = .error (.fatal "Incompatible number of index dimensions after \x27x\x27. Expected 2, found 3.")
    ∧ getValue (.instRef c9root 0 [("x", [.intLiteral none 4 64, .intLiteral none 0 64])])
      = .error (.pyNameError "array_suffix")
    ∧ getValue (.instRef c9root 0 [("x", [.intLiteral none 3 64, .intLiteral none 7 64])])
      = .ok (.vref (.mk 0 [("x", some [.vint 3, .vint 7])]))
    ∧ predictType (.instRef c9root 0 [("x", [.intLiteral none 3 64, .intLiteral none 7 64])])
      = .ok (.tcomp "Reg") := by
  exact ⟨rfl, rfl, rfl, rfl, rfl⟩

/-- Claim C10: on a logical-boolean node (`&&`, `||`) `resolve_expr_width`
is a no-op — the node, its own evaluation width and both operands are left
exactly as they were — and operand width resolution is triggered only by
`propagate_eval_width`, which resolves each operand as its own context. -/
theorem claim_C10 (w : Int) (ew : Option Int) (bop : BoolOp) (l r : Expr) :
    resolveExprWidth (.boolExpr ew bop l r) = .ok (.boolExpr ew bop l r)
    ∧ propagateEvalWidth w (.boolExpr ew bop l r) = (do
        let l2 ← resolveExprWidth l
        let r2 ← resolveExprWidth r
        Except.ok (.boolExpr ew bop l2 r2)) := by
  exact ⟨by simp [resolveExprWidth], by simp [propagateEvalWidth]⟩

/-- Counterexample to claim C2: for relational nodes the two operands are
NOT resolved independently.  With `Lt(BitwiseInvert(IntLiteral(0, width=4)),
IntLiteral(16, width=8))`, width resolution of the relational node resolves
the left operand at width 8 — the declared width of the sibling — while changing
only the width of the right literal to 4 resolves the left operand at width 4;
resolved on its own (self-determined) the left operand gets width 4.  The
difference is observable in values: the inverted zero evaluates to 255 at
width 8 but to 15 at width 4, so the comparison with 16 flips. -/
theorem claim_C2_counterexample :
    resolveExprWidth (.relational none .lt (.unary none .invert (.intLiteral none 0 4))
        (.intLiteral none 16 8))
      = .ok (.relational (some 8) .lt (.unary (some 8) .invert (.intLiteral (some 8) 0 4))
        (.intLiteral (some 8) 16 8))
    ∧ resolveExprWidth (.relational none .lt (.unary none .invert (.intLiteral none 0 4))
        (.intLiteral none 16 4))
      = .ok (.relational (some 4) .lt (.unary (some 4) .invert (.intLiteral (some 4) 0 4))
        (.intLiteral (some 4) 16 4))
    ∧ resolveExprWidth (.unary none .invert (.intLiteral none 0 4))
      = .ok (.unary (some 4) .invert (.intLiteral (some 4) 0 4))
    ∧ getValue (.unary (some 8) .invert (.intLiteral (some 8) 0 4)) = .ok (.vint 255)
    ∧ getValue (.unary (some 4) .invert (.intLiteral (some 4) 0 4)) = .ok (.vint 15)
    ∧ getValue (.relational (some 8) .lt (.unary (some 8) .invert (.intLiteral (some 8) 0 4))
        (.intLiteral (some 8) 16 8))
      = .ok (.vbool false) := by
  have ht8 : trunc (some 8) (Int.not 0) = .ok 255 := by
    rw [truncEmod 8 (by norm_num),
      show Int.not 0 % (2 : Int) ^ (8 : Int).toNat = 255 from by decide]
  have ht4 : trunc (some 4) (Int.not 0) = .ok 15 := by
    rw [truncEmod 4 (by norm_num),
      show Int.not 0 % (2 : Int) ^ (4 : Int).toNat = 15 from by decide]
  refine ⟨?_, ?_, ?_, ?_, ?_, ?_⟩
  · simp [resolveExprWidth, getMinEvalWidth, propagateEvalWidth]
  · simp [resolveExprWidth, getMinEvalWidth, propagateEvalWidth]
  · simp [resolveExprWidth, getMinEvalWidth, propagateEvalWidth]
  · simp [getValue, pyInt, ht8]
  · simp [getValue, pyInt, ht4]
  · simp [getValue, pyInt, ht8]

/-- Claim C2 amended: logical-boolean nodes (`&&`, `||`) open a new
self-determined context for each operand independently (neither the
imposed width nor the sibling has any influence), but relational nodes
open ONE new shared context for BOTH operands, sized to the running
maximum `max(max(1, wl), wr)` of the two operands self-determined widths,
so the width of one relational operand does influence the width at which the
other is resolved and evaluated. -/
theorem claim_C2_amended (w : Int) (ew : Option Int) (bop : BoolOp) (rop : RelOp)
    (l r : Expr) (wl wr : Int)
    (hwl : getMinEvalWidth l = .ok wl) (hwr : getMinEvalWidth r = .ok wr) :
    propagateEvalWidth w (.boolExpr ew bop l r) = (do
        let l2 ← resolveExprWidth l
        let r2 ← resolveExprWidth r
        Except.ok (.boolExpr ew bop l2 r2))
    ∧ propagateEvalWidth w (.relational ew rop l r)
      = resolveExprWidth (.relational ew rop l r)
    ∧ resolveExprWidth (.relational ew rop l r) = (do
        let l2 ← propagateEvalWidth (max (max 1 wl) wr) l
        let r2 ← propagateEvalWidth (max (max 1 wl) wr) r
        Except.ok (.relational (some (max (max 1 wl) wr)) rop l2 r2)) := by
  refine ⟨by simp [propagateEvalWidth], by simp [propagateEvalWidth], ?_⟩
  simp [resolveExprWidth, hwl, hwr]

/-- Witness for claim C2 amended, at `BoolAnd` and `Lt` over the literals
of the counterexample: the relational context is the shared width 8. -/
theorem claim_C2_amended_witness :
    propagateEvalWidth 3 (.relational none .lt (.unary none .invert (.intLiteral none 0 4))
        (.intLiteral none 16 8))
      = resolveExprWidth (.relational none .lt (.unary none .invert (.intLiteral none 0 4))
        (.intLiteral none 16 8))
    ∧ resolveExprWidth (.relational none .lt (.unary none .invert (.intLiteral none 0 4))
        (.intLiteral none 16 8)) = (do
        let l2 ← propagateEvalWidth (max (max 1 4) 8)
          (.unary none .invert (.intLiteral none 0 4))
        let r2 ← propagateEvalWidth (max (max 1 4) 8) (.intLiteral none 16 8)
        Except.ok (.relational (some (max (max 1 4) 8)) .lt l2 r2)) := by
  have h := claim_C2_amended 3 none .band .lt
    (.unary none .invert (.intLiteral none 0 4)) (.intLiteral none 16 8) 4 8
    (by simp [getMinEvalWidth]) (by simp [getMinEvalWidth])
  exact ⟨h.2.1, h.2.2⟩

/-- Claim C4: for exponent/shift nodes the right operand is always resolved
as its own self-determined context — under `propagate_eval_width` it
receives `resolve_expr_width` irrespective of the imposed width `w`, and
the enclosing context width (`get_min_eval_width` as well as the width set
by `resolve_expr_width`) is derived from the left operand only; in
particular `LShift(IntLiteral(1, width=8), IntLiteral(3, width=99))`
resolves to width 8 (the 99 has no influence) and evaluates to 8. -/
theorem claim_C4 (w : Int) (ew : Option Int) (sop : ShiftOp) (l r : Expr) :
    propagateEvalWidth w (.expShift ew sop l r) = (do
        let l2 ← propagateEvalWidth w l
        let r2 ← resolveExprWidth r
        Except.ok (.expShift (some w) sop l2 r2))
    ∧ getMinEvalWidth (.expShift ew sop l r) = getMinEvalWidth l
    ∧ resolveExprWidth (.expShift ew sop l r) = (do
        let wl ← getMinEvalWidth l
        let l2 ← propagateEvalWidth wl l
        Except.ok (.expShift (some wl) sop l2 r))
    ∧ resolveExprWidth (.expShift none .lsh (.intLiteral none 1 8) (.intLiteral none 3 99))
      = .ok (.expShift (some 8) .lsh (.intLiteral (some 8) 1 8) (.intLiteral none 3 99))
    ∧ getValue (.expShift (some 8) .lsh (.intLiteral (some 8) 1 8) (.intLiteral none 3 99))
      = .ok (.vint 8) := by
  refine ⟨by simp [propagateEvalWidth], by simp [getMinEvalWidth], by simp [resolveExprWidth], ?_, rfl⟩
  simp [resolveExprWidth, getMinEvalWidth, propagateEvalWidth]

/-- Claim C5: `resolve_expr_width` on a ternary node gives the true and
false branches one shared context of width `max(1, wj, wk)` — computed
from the two branches self-determined widths only, never from the
condition, and independently of which branch a later `get_value` selects —
and the condition participates in no width computation: `resolve_expr_width`
leaves it untouched, and when the ternary is an operand of an enclosing
context (`propagate_eval_width`) the condition is resolved as its own
self-determined context, ignoring the imposed width.  The spec example with
branch widths 4 and 8 resolves both branches in a shared context of
width 8. -/
theorem claim_C5 (w : Int) (ew : Option Int) (i j k : Expr) :
    resolveExprWidth (.ternary ew i j k) = (do
        let wj ← getMinEvalWidth j
        let wk ← getMinEvalWidth k
        let j2 ← propagateEvalWidth (max (max 1 wj) wk) j
        let k2 ← propagateEvalWidth (max (max 1 wj) wk) k
        Except.ok (.ternary (some (max (max 1 wj) wk)) i j2 k2))
    ∧ getMinEvalWidth (.ternary ew i j k) = (do
        let wj ← getMinEvalWidth j
        let wk ← getMinEvalWidth k
        Except.ok (max wj wk))
    ∧ propagateEvalWidth w (.ternary ew i j k) = (do
        let j2 ← propagateEvalWidth w j
        let k2 ← propagateEvalWidth w k
        let i2 ← resolveExprWidth i
        Except.ok (.ternary (some w) i2 j2 k2))
    ∧ resolveExprWidth (.ternary none (.intLiteral none 0 1) (.intLiteral none 0 4)
        (.intLiteral none 0 8))
      = .ok (.ternary (some 8) (.intLiteral none 0 1) (.intLiteral (some 8) 0 4)
        (.intLiteral (some 8) 0 8)) := by
  refine ⟨by simp [resolveExprWidth], by simp [getMinEvalWidth], by simp [propagateEvalWidth], ?_⟩
  simp [resolveExprWidth, getMinEvalWidth, propagateEvalWidth]

/-- Claim C6: a width-cast node with fixed cast width `cw` re-resolves its
value operand in a context of width `max(cw, value minimal width)`;
`get_value` truncates the operand value to the cast width itself —
whatever evaluation width `ew` the node carries — and a cast width of 0
fails with the zero-width cast diagnostic. -/
theorem claim_C6 (ew : Option Int) (cw wv n : Int) (v : Expr)
    (hcw : 0 ≤ cw) (hwv : getMinEvalWidth v = .ok wv)
    (hv : getValue v = .ok (.vint n)) :
    resolveExprWidth (.widthCast ew (some cw) v none) = (do
        let v2 ← propagateEvalWidth (max cw wv) v
        Except.ok (.widthCast (some (max cw wv)) (some cw) v2 none))
    ∧ (cw = 0 → getValue (.widthCast ew (some cw) v none)
        = .error (.fatal "Cannot cast to width of zero"))
    ∧ (cw ≠ 0 → getValue (.widthCast ew (some cw) v none)
        = .ok (.vint (n % (2 : Int) ^ cw.toNat))) := by
  refine ⟨?_, ?_, ?_⟩
  · simp [resolveExprWidth, castWidthResolve, hwv]
  · intro h0
    simp [getValue, hv, pyInt, h0]
  · intro h0
    simp [getValue, hv, pyInt, h0, truncEmod cw hcw]

/-- Witness for claim C6: casting `IntLiteral(300, width=64)` to width 4
resolves the operand at width `max(4, 64) = 64` yet truncates the result to
the cast width 4 (`300 mod 16 = 12`, not `300`); casting to width 0 fails
with the zero-width diagnostic. -/
theorem claim_C6_witness :
    resolveExprWidth (.widthCast none (some 4) (.intLiteral none 300 64) none)
      = .ok (.widthCast (some 64) (some 4) (.intLiteral (some 64) 300 64) none)
    ∧ getValue (.widthCast (some 64) (some 4) (.intLiteral (some 64) 300 64) none)
      = .ok (.vint 12)
    ∧ getValue (.widthCast (some 64) (some 0) (.intLiteral (some 64) 300 64) none)
      = .error (.fatal "Cannot cast to width of zero") := by
  have ha := claim_C6 none 4 64 300 (.intLiteral none 300 64) (by norm_num)
    (by simp [getMinEvalWidth]) rfl
  have hb := claim_C6 (some 64) 4 64 300 (.intLiteral (some 64) 300 64)
    (by norm_num) (by simp [getMinEvalWidth]) rfl
  have hc := claim_C6 (some 64) 0 64 300 (.intLiteral (some 64) 300 64)
    (by norm_num) (by simp [getMinEvalWidth]) rfl
  refine ⟨?_, ?_, hc.2.1 rfl⟩
  · have h1 := ha.1
    simpa [propagateEvalWidth] using h1
  · have h2 := hb.2.2 (by norm_num)
    rw [h2]
    simp only [Except.ok.injEq, Value.vint.injEq]
    decide

/-- Claim C7: `Div.get_value` fails with the division-by-zero diagnostic
exactly when the right operand evaluates to 0 and otherwise computes
the Python `//` operation — floor division, `Int.fdiv` — before truncating to the
resolved width; `Mod.get_value` likewise with the modulo-by-zero
diagnostic and the Python `%` operation (`Int.fmod`).  The last conjunct is the
floor-division characterization: for a positive divisor the quotient is
the greatest integer `q` with `b * q ≤ a`, i.e. rounding toward negative
infinity. -/
theorem claim_C7 (ew : Option Int) (l r : Expr) (lv rv : Int)
    (hl : getValue l = .ok (.vint lv)) (hr : getValue r = .ok (.vint rv)) :
    (getValue (.binary ew .div l r)
      = if rv = 0 then .error (.fatal "Division by zero")
        else do
          let t ← trunc ew (Int.fdiv lv rv)
          Except.ok (.vint t))
    ∧ (getValue (.binary ew .mod l r)
      = if rv = 0 then .error (.fatal "Modulo by zero")
        else do
          let t ← trunc ew (Int.fmod lv rv)
          Except.ok (.vint t))
    ∧ (∀ a b : Int, 0 < b →
        b * Int.fdiv a b ≤ a ∧ a < b * (Int.fdiv a b + 1)) := by
  refine ⟨?_, ?_, ?_⟩
  · by_cases h0 : rv = 0 <;> simp [getValue, hl, hr, pyInt, h0]
  · by_cases h0 : rv = 0 <;> simp [getValue, hl, hr, pyInt, h0]
  · intro a b hb
    have hmf := Int.fmod_add_fdiv a b
    have hnn : 0 ≤ Int.fmod a b := by
      rw [Int.fmod_eq_emod a (le_of_lt hb)]
      exact Int.emod_nonneg a (by omega)
    have hlt : Int.fmod a b < b := Int.fmod_lt_of_pos a hb
    have hexp : b * (Int.fdiv a b + 1) = b * Int.fdiv a b + b := by ring
    constructor <;> [linarith [hmf]; linarith [hmf, hexp.le, hexp.ge]]

/-- Witness for claim C7: `Div(IntLiteral(7), IntLiteral(0))` raises the
division-by-zero fatal, `Mod` with 0 the modulo fatal; `-7 // 2` floors to
`-4` which truncates at width 4 to 12 (truncation toward zero would have
yielded 13). -/
theorem claim_C7_witness :
    getValue (.binary (some 4) .div (.intLiteral none 7 4) (.intLiteral none 0 4))
      = .error (.fatal "Division by zero")
    ∧ getValue (.binary (some 4) .div (.intLiteral none (-7) 4) (.intLiteral none 2 4))
      = .ok (.vint 12)
    ∧ getValue (.binary (some 4) .mod (.intLiteral none 7 4) (.intLiteral none 0 4))
      = .error (.fatal "Modulo by zero") := by
  have h1 := (claim_C7 (some 4) (.intLiteral none 7 4) (.intLiteral none 0 4)
    7 0 rfl rfl).1
  have h2 := (claim_C7 (some 4) (.intLiteral none (-7) 4) (.intLiteral none 2 4)
    (-7) 2 rfl rfl).1
  have h3 := (claim_C7 (some 4) (.intLiteral none 7 4) (.intLiteral none 0 4)
    7 0 rfl rfl).2.1
  refine ⟨by simpa using h1, ?_, by simpa using h3⟩
  rw [if_neg (by norm_num)] at h2
  rw [truncEmod 4 (by norm_num)] at h2
  simp only [exceptBindOk] at h2
  rw [h2]
  simp only [Except.ok.injEq, Value.vint.injEq]
  decide

/-- Counterexample to claim C8: value evaluation of a parameter reference
with no bound expression does NOT fail with the UnboundParameter
diagnostic naming the parameter — the source calls
`self.param.expr.get_value()` on `None`, which raises a bare
AttributeError carrying no parameter name. -/
theorem claim_C8_counterexample :
    getValue (.paramRef none "P" .tint none) = .error .pyAttributeError
    ∧ (Except.error EvalErr.pyAttributeError : Except EvalErr Value)
      ≠ .error (.fatal (unboundMsg "P")) := by
  exact ⟨rfl, by simp⟩

/-- Claim C8 amended: for an unbound parameter, the width operations
(first width resolution, minimal-width query, width propagation) fail with
the fatal diagnostic that names the parameter (`unboundMsg n` embeds `n`),
while value evaluation fails with a bare AttributeError instead of the
named diagnostic; when an expression is bound, width and value operations
delegate to the bound expression. -/
theorem claim_C8_amended (w : Int) (ew : Option Int) (n : String) (pt : RdlType)
    (e : Expr) :
    resolveExprWidth (.paramRef ew n pt none) = .error (.fatal (unboundMsg n))
    ∧ getMinEvalWidth (.paramRef ew n pt none) = .error (.fatal (unboundMsg n))
    ∧ propagateEvalWidth w (.paramRef ew n pt none) = .error (.fatal (unboundMsg n))
    ∧ getValue (.paramRef ew n pt none) = .error .pyAttributeError
    ∧ getMinEvalWidth (.paramRef ew n pt (some e)) = getMinEvalWidth e
    ∧ getValue (.paramRef ew n pt (some e)) = getValue e
    ∧ resolveExprWidth (.paramRef ew n pt (some e)) = (do
        let we ← getMinEvalWidth e
        let e2 ← propagateEvalWidth (max 1 we) e
        Except.ok (.paramRef (some (max 1 we)) n pt (some e2)))
    ∧ propagateEvalWidth w (.paramRef ew n pt (some e))
      = resolveExprWidth (.paramRef ew n pt (some e)) := by
  refine ⟨by simp [resolveExprWidth], by simp [getMinEvalWidth],
    by simp [propagateEvalWidth, resolveExprWidth], by simp [getValue],
    by simp [getMinEvalWidth], by simp [getValue],
    by simp [resolveExprWidth], by simp [propagateEvalWidth]⟩

end SystemRdl
